import Mathlib

set_option maxRecDepth 100000

/-!
Verification of the checkpoint/restart subsystem of root_digger
(src/src/checkpoint.cpp), over a shallow embedding.

The file content is modelled as a `List Nat` of bytes.  The generic
typed codec and the framing helpers (`read_with_checksum`,
`write_with_checksum`, `read_with_success`, `write_with_success`,
`expected_read_size`) live in the missing header `checkpoint.hpp`; they
are modelled from the spec (section 4.1, 4.2 and the file-format grammar
in section 6) and marked as such.  Everything that is present in
`checkpoint.cpp` is translated directly from that source.
-/


/-- Modelled from the spec: the generic fixed-width scalar encoder of the
missing header `checkpoint.hpp` ("fixed-width integers ... stored as their
underlying integer", native byte order, here little-endian): `w` bytes of
the value `n`. -/
def encodeW : Nat → Nat → List Nat
  | 0, _ => []
  | k + 1, n => n % 256 :: encodeW k (n / 256)

/-- Modelled from the spec: the matching fixed-width scalar decoder,
reading `w` little-endian bytes from the front of the stream. -/
def decodeW : Nat → List Nat → Nat
  | 0, _ => 0
  | _ + 1, [] => 0
  | k + 1, b :: rest => b + 256 * decodeW k rest

/-- Modelled from the spec: the generic scalar `read` of `checkpoint.hpp`:
a truncated stream (fewer than `w` bytes) is an immediate failure,
otherwise the decoded value and the `w` bytes consumed are returned. -/
def readW (w : Nat) (bs : List Nat) : Option (Nat × Nat) :=
  if bs.length < w then none else some (decodeW w bs, w)

/-- Modelled from the spec: booleans are one-byte scalars. -/
def encodeBool (b : Bool) : List Nat := [if b then 1 else 0]

/-- Modelled from the spec: the one-byte boolean decoder. -/
def readBool : List Nat → Option (Bool × Nat)
  | [] => none
  | b :: _ => some (b != 0, 1)

/-- The byte image produced by `write<std::string>`
(src/src/checkpoint.cpp lines 10-24) when both underlying `write` calls
transfer everything: the 8-byte length prefix followed by the raw bytes. -/
def writeString (s : List Nat) : List Nat := encodeW 8 s.length ++ s

/-- The return/throw behaviour of `write<std::string>`
(src/src/checkpoint.cpp lines 10-24) given the byte counts `r1` and `r2`
transferred by the two underlying `write` calls: a short length-prefix
write throws `checkpoint_write_failure` (`.error`), while the result of
the payload write is added to the running total without any check. -/
def writeStringWith (_s : List Nat) (r1 r2 : Nat) : Except Unit Nat :=
  if r1 < 8 then .error () else .ok (r1 + r2)

/-- `read<std::string>` (src/src/checkpoint.cpp lines 26-48).  The size
is read as an 8-byte scalar; a zero size returns at once leaving the
out-parameter `prev` untouched; otherwise up to `size` bytes are read
into a zero-filled buffer and the result is constructed as a C string,
i.e. it stops at the first zero byte.  Returns the value together with
the total bytes consumed. -/
def readString (bs prev : List Nat) : Option (List Nat × Nat) :=
  if bs.length < 8 then none
  else
    let string_size := decodeW 8 bs
    if string_size = 0 then some (prev, 8)
    else
      let raw := (bs.drop 8).take string_size
      some (raw.takeWhile (fun b => b != 0), 8 + raw.length)

/-- `cli_options_t`: the configuration snapshot, with exactly the fields
serialized by `write<cli_options_t>`/`read<cli_options_t>`
(src/src/checkpoint.cpp lines 50-109), in that order.  Strings are byte
lists; the remaining scalar fields are modelled from the spec as
fixed-width integers holding the on-disk bit pattern (enums and
floating-point fields included: the codec only copies bytes). -/
structure cli_options_t where
  msa_filename : List Nat
  tree_filename : List Nat
  -- the C++ field is named `prefix`; that word is a Lean keyword, so it
  -- is rendered here as `prefix_field`
  prefix_field : List Nat
  model_filename : List Nat
  freqs_filename : List Nat
  partition_filename : List Nat
  data_type : Nat
  model_string : List Nat
  rate_cats : Nat
  rate_category_types : Nat
  seed : Nat
  min_roots : Nat
  threads : Nat
  root_ratio : Nat
  abs_tolerance : Nat
  factor : Nat
  br_tolerance : Nat
  bfgs_tol : Nat
  silent : Bool
  exhaustive : Bool
  echo : Bool
  invariant_sites : Bool
  early_stop : Bool
deriving DecidableEq

/-- A default-constructed `cli_options_t` (all strings empty), as used
for the local temporaries in `checkpoint_t::clean` and
`checkpoint_t::current_progress`. -/
def default_options : cli_options_t :=
  ⟨[], [], [], [], [], [], 0, [], 0, 0, 0, 0, 0, 0, 0, 0, 0, 0,
   false, false, false, false, false⟩

/-- `write<cli_options_t>` (src/src/checkpoint.cpp lines 50-79): the
concatenation of the field encodings in the source's fixed order. -/
def encodeOptions (o : cli_options_t) : List Nat :=
  writeString o.msa_filename ++
  writeString o.tree_filename ++
  writeString o.prefix_field ++
  writeString o.model_filename ++
  writeString o.freqs_filename ++
  writeString o.partition_filename ++
  encodeW 8 o.data_type ++
  writeString o.model_string ++
  encodeW 8 o.rate_cats ++
  encodeW 8 o.rate_category_types ++
  encodeW 8 o.seed ++
  encodeW 8 o.min_roots ++
  encodeW 8 o.threads ++
  encodeW 8 o.root_ratio ++
  encodeW 8 o.abs_tolerance ++
  encodeW 8 o.factor ++
  encodeW 8 o.br_tolerance ++
  encodeW 8 o.bfgs_tol ++
  encodeBool o.silent ++
  encodeBool o.exhaustive ++
  encodeBool o.echo ++
  encodeBool o.invariant_sites ++
  encodeBool o.early_stop

/-- `read<cli_options_t>` (src/src/checkpoint.cpp lines 81-109): the
fields are read in the same fixed order into the out-parameter `init`,
accumulating the bytes consumed. -/
def decodeOptions (bs : List Nat) (init : cli_options_t) :
    Option (cli_options_t × Nat) :=
  match readString bs init.msa_filename with
  | none => none
  | some (f1, n1) =>
  match readString (bs.drop n1) init.tree_filename with
  | none => none
  | some (f2, n2) =>
  let bs2 := (bs.drop n1).drop n2
  match readString bs2 init.prefix_field with
  | none => none
  | some (f3, n3) =>
  let bs3 := bs2.drop n3
  match readString bs3 init.model_filename with
  | none => none
  | some (f4, n4) =>
  let bs4 := bs3.drop n4
  match readString bs4 init.freqs_filename with
  | none => none
  | some (f5, n5) =>
  let bs5 := bs4.drop n5
  match readString bs5 init.partition_filename with
  | none => none
  | some (f6, n6) =>
  let bs6 := bs5.drop n6
  match readW 8 bs6 with
  | none => none
  | some (f7, n7) =>
  let bs7 := bs6.drop n7
  match readString bs7 init.model_string with
  | none => none
  | some (f8, n8) =>
  let bs8 := bs7.drop n8
  match readW 8 bs8 with
  | none => none
  | some (f9, n9) =>
  let bs9 := bs8.drop n9
  match readW 8 bs9 with
  | none => none
  | some (f10, n10) =>
  let bs10 := bs9.drop n10
  match readW 8 bs10 with
  | none => none
  | some (f11, n11) =>
  let bs11 := bs10.drop n11
  match readW 8 bs11 with
  | none => none
  | some (f12, n12) =>
  let bs12 := bs11.drop n12
  match readW 8 bs12 with
  | none => none
  | some (f13, n13) =>
  let bs13 := bs12.drop n13
  match readW 8 bs13 with
  | none => none
  | some (f14, n14) =>
  let bs14 := bs13.drop n14
  match readW 8 bs14 with
  | none => none
  | some (f15, n15) =>
  let bs15 := bs14.drop n15
  match readW 8 bs15 with
  | none => none
  | some (f16, n16) =>
  let bs16 := bs15.drop n16
  match readW 8 bs16 with
  | none => none
  | some (f17, n17) =>
  let bs17 := bs16.drop n17
  match readW 8 bs17 with
  | none => none
  | some (f18, n18) =>
  let bs18 := bs17.drop n18
  match readBool bs18 with
  | none => none
  | some (f19, n19) =>
  let bs19 := bs18.drop n19
  match readBool bs19 with
  | none => none
  | some (f20, n20) =>
  let bs20 := bs19.drop n20
  match readBool bs20 with
  | none => none
  | some (f21, n21) =>
  let bs21 := bs20.drop n21
  match readBool bs21 with
  | none => none
  | some (f22, n22) =>
  let bs22 := bs21.drop n22
  match readBool bs22 with
  | none => none
  | some (f23, n23) =>
  some (⟨f1, f2, f3, f4, f5, f6, f7, f8, f9, f10, f11, f12, f13, f14,
         f15, f16, f17, f18, f19, f20, f21, f22, f23⟩,
        n1 + n2 + n3 + n4 + n5 + n6 + n7 + n8 + n9 + n10 + n11 + n12 +
        n13 + n14 + n15 + n16 + n17 + n18 + n19 + n20 + n21 + n22 + n23)

/-- A string value the on-disk codec can faithfully carry: no NUL bytes
(the C-string reconstruction stops there) and a length representable in
the 8-byte size field. -/
def stringValid (s : List Nat) : Prop :=
  (∀ b ∈ s, b ≠ 0) ∧ s.length < 256 ^ 8

instance (s : List Nat) : Decidable (stringValid s) := by
  unfold stringValid; infer_instance

/-- A configuration snapshot the on-disk codec can faithfully carry:
every string field is `stringValid` and every scalar field fits its
8-byte encoding. -/
def optionsValid (o : cli_options_t) : Prop :=
  stringValid o.msa_filename ∧ stringValid o.tree_filename ∧
  stringValid o.prefix_field ∧ stringValid o.model_filename ∧
  stringValid o.freqs_filename ∧ stringValid o.partition_filename ∧
  stringValid o.model_string ∧
  o.data_type < 256 ^ 8 ∧ o.rate_cats < 256 ^ 8 ∧
  o.rate_category_types < 256 ^ 8 ∧ o.seed < 256 ^ 8 ∧
  o.min_roots < 256 ^ 8 ∧ o.threads < 256 ^ 8 ∧ o.root_ratio < 256 ^ 8 ∧
  o.abs_tolerance < 256 ^ 8 ∧ o.factor < 256 ^ 8 ∧
  o.br_tolerance < 256 ^ 8 ∧ o.bfgs_tol < 256 ^ 8 ∧
  (encodeOptions o).length < 256 ^ 8

instance (o : cli_options_t) : Decidable (optionsValid o) := by
  unfold optionsValid; infer_instance

/-- Modelled from the spec: the header framing of `checkpoint.hpp`
(`framed(V) := length:u64 payload:bytes[length]`, no checksum);
`write_with_success` writes the length prefix followed by the encoded
configuration. -/
def write_with_success (o : cli_options_t) : List Nat :=
  encodeW 8 (encodeOptions o).length ++ encodeOptions o

/-- Modelled from the spec: `read_with_success` of `checkpoint.hpp`
reads the 8-byte length prefix, decodes the configuration into the
out-parameter `init`, and succeeds only when the decode consumed exactly
the declared length.  Returns the value and the total bytes consumed;
`none` models the thrown read failure. -/
def read_with_success (bs : List Nat) (init : cli_options_t) :
    Option (cli_options_t × Nat) :=
  (readW 8 bs).bind fun p =>
    (decodeOptions (bs.drop 8) init).bind fun q =>
      if q.2 = p.1 then some (q.1, 8 + q.2) else none

/-- `rd_result_t`: one result record per completed unit of work.
Modelled from the spec: it carries at minimum the unique, stable
identifier `root_id` (a `size_t` in the source, written as an 8-byte
scalar); `checkpoint.cpp` itself touches only this field. -/
structure rd_result_t where
  root_id : Nat
deriving DecidableEq

/-- Modelled from the spec: the encoded payload of a result record. -/
def encodeResult (r : rd_result_t) : List Nat := encodeW 8 r.root_id

/-- Modelled from the spec: "a checksum over the encoded bytes"
(`checkpoint.hpp` is not in the sources); a concrete byte-sum modulo the
8-byte range stands in for it — both writer and reader below use it. -/
def checksum (bs : List Nat) : Nat := bs.sum % 256 ^ 8

/-- Modelled from the spec: `expected_read_size<rd_result_t>()` of
`checkpoint.hpp`: 8-byte length + 8-byte checksum + 8-byte payload. -/
def expected_read_size : Nat := 24

/-- Modelled from the spec: `write_with_checksum` of `checkpoint.hpp`
(`framed_checksummed(V) := length:u64 checksum:u64 payload`). -/
def write_with_checksum (r : rd_result_t) : List Nat :=
  encodeW 8 (encodeResult r).length ++
  encodeW 8 (checksum (encodeResult r)) ++ encodeResult r

/-- Outcome of one `read_with_checksum` call: clean end-of-file (zero
bytes available), a decoded record with its byte count, or one of the
two corruption classes. -/
inductive read_outcome where
  | eof : read_outcome
  | ok : rd_result_t → Nat → read_outcome
  | shortRead : read_outcome
  | checksumMismatch : read_outcome
deriving DecidableEq

/-- Modelled from the spec: `read_with_checksum` of `checkpoint.hpp`
reads the length word (`decodeW 8 bs`) and the checksum word
(`decodeW 8 (bs.drop 8)`), then exactly `length` payload bytes,
recomputes the checksum and compares.  Zero bytes available is a clean
end-of-file; fewer bytes than declared (anywhere, the record value
included) is a `ShortRead`; a checksum difference is a
`ChecksumMismatch`. -/
def read_with_checksum (bs : List Nat) : read_outcome :=
  if bs.length = 0 then .eof
  else if bs.length < 16 then .shortRead
  else if ((bs.drop 16).take (decodeW 8 bs)).length < decodeW 8 bs then
    .shortRead
  else if checksum ((bs.drop 16).take (decodeW 8 bs)) ≠ decodeW 8 (bs.drop 8) then
    .checksumMismatch
  else if ((bs.drop 16).take (decodeW 8 bs)).length < 8 then .shortRead
  else .ok ⟨decodeW 8 ((bs.drop 16).take (decodeW 8 bs))⟩ (16 + decodeW 8 bs)

/-- A result record the codec can faithfully carry: its identifier fits
the 8-byte encoding. -/
def resultValid (r : rd_result_t) : Prop := r.root_id < 256 ^ 8

instance (r : rd_result_t) : Decidable (resultValid r) := by
  unfold resultValid; infer_instance

/-- The body-scanning loop of `checkpoint_t::current_progress`
(src/src/checkpoint.cpp lines 185-204), one iteration per
`read_with_checksum` call: a decoded record of the expected size is
accumulated; zero bytes read breaks the loop; a corruption-class failure
(`checkpoint_read_success_failure`) is caught, emits a warning and
breaks; any other read size throws `std::runtime_error`, which is NOT
caught and escapes to the caller (`.error`).  Returns the records in
on-disk order together with the bytes consumed.  The loop consumes at
least 16 bytes per iteration, so `fuel` bounds the iteration count; the
wrapper below supplies more fuel than the byte count, making the `fuel =
0` branch unreachable. -/
def scanBodyF : Nat → List Nat → Except Unit (List rd_result_t × Nat)
  | 0, _ => .ok ([], 0)
  | fuel + 1, bs =>
    match read_with_checksum bs with
    | .eof => .ok ([], 0)
    | .shortRead => .ok ([], 0)
    | .checksumMismatch => .ok ([], 0)
    | .ok r n =>
      if n = expected_read_size then
        match scanBodyF fuel (bs.drop n) with
        | .error e => .error e
        | .ok (rs, m) => .ok (r :: rs, n + m)
      else .error ()

/-- The scanning loop run to completion on a byte stream. -/
def scanBody (bs : List Nat) : Except Unit (List rd_result_t × Nat) :=
  scanBodyF (bs.length + 1) bs

/-- A byte stream at which the scanning loop stops cleanly: end-of-file
or one of the two caught corruption classes. -/
def scanStop (bs : List Nat) : Prop :=
  read_with_checksum bs = .eof ∨ read_with_checksum bs = .shortRead ∨
    read_with_checksum bs = .checksumMismatch

instance (bs : List Nat) : Decidable (scanStop bs) := by
  unfold scanStop; infer_instance

/-- The join of the framed encodings of a record list. -/
def framesOf (rs : List rd_result_t) : List Nat :=
  (rs.map write_with_checksum).flatten

/-- The state of a `checkpoint_t` instance together with the files it
touches (src/src/checkpoint.cpp lines 111-119).  `file` is the byte
content of the open file description `_file_descriptor` refers to and
`offset` its read/write position; `pathFile` is the byte content of the
file currently at `_checkpoint_filename`, and `sameInode` records
whether the descriptor still refers to that file (it stops doing so when
`clean`'s rename replaces the path). -/
structure checkpoint_t where
  _file_descriptor : Int
  _existing_results : Bool
  file : List Nat
  offset : Nat
  pathFile : List Nat
  sameInode : Bool
deriving DecidableEq

/-- `checkpoint_t::checkpoint_t(const std::string&)`
(src/src/checkpoint.cpp lines 111-119): `_existing_results` is the
pre-open existence check of the path; the `O_RDWR|O_APPEND|O_CREAT` open
creates an empty file when the path was absent.  `pathContent` is the
content of the file at the path before the open (`none` when absent);
`fd` is the descriptor the OS returns. -/
def checkpoint_mk (pathContent : Option (List Nat)) (fd : Int) : checkpoint_t :=
  { _file_descriptor := fd
    _existing_results := pathContent.isSome
    file := pathContent.getD []
    offset := 0
    pathFile := pathContent.getD []
    sameInode := true }

/-- An `O_APPEND` write through the instance's descriptor: the bytes go
to the end of the descriptor's file (and are visible at the path while
the descriptor still refers to it), and the offset moves to the new
end. -/
def appendFd (st : checkpoint_t) (bs : List Nat) : checkpoint_t :=
  { st with
    file := st.file ++ bs
    pathFile := if st.sameInode then st.pathFile ++ bs else st.pathFile
    offset := st.file.length + bs.length }

/-- `checkpoint_t::save_options` (src/src/checkpoint.cpp lines 153-157):
writes the framed header only when the file did not pre-exist. -/
def checkpoint_t.save_options (st : checkpoint_t) (options : cli_options_t) :
    checkpoint_t :=
  if st._existing_results then st else appendFd st (write_with_success options)

/-- `checkpoint_t::write` (src/src/checkpoint.cpp lines 146-151): under
the blocking write lock, appends one checksummed framed record. -/
def checkpoint_t.write (st : checkpoint_t) (result : rd_result_t) :
    checkpoint_t :=
  appendFd st (write_with_checksum result)

/-- `checkpoint_t::current_progress` (src/src/checkpoint.cpp lines
168-207): duplicates the descriptor (sharing its offset), seeks to the
start, reads and discards the framed header into a default-constructed
temporary (a failure there escapes to the caller), then runs the
scanning loop.  Returns the decoded records; the shared offset is left
where the scan stopped. -/
def checkpoint_t.current_progress (st : checkpoint_t) :
    Except Unit (List rd_result_t × checkpoint_t) :=
  match read_with_success st.file default_options with
  | none => .error ()
  | some (_, hn) =>
    match scanBody (st.file.drop hn) with
    | .error e => .error e
    | .ok (rs, bn) => .ok (rs, { st with offset := hn + bn })

/-- `checkpoint_t::completed_indicies` (src/src/checkpoint.cpp lines
209-216): the scan projected to each record's `root_id`. -/
def checkpoint_t.completed_indicies (st : checkpoint_t) :
    Except Unit (List Nat × checkpoint_t) :=
  match st.current_progress with
  | .error e => .error e
  | .ok (results, st') => .ok (results.map rd_result_t.root_id, st')

/-- `checkpoint_t::clean` (src/src/checkpoint.cpp lines 121-144): a
no-op unless the file pre-existed; only rank 0 compacts.  Under the
lock it opens the backup file with `O_EXCL` (`.error` when a stale
backup exists), reads the header from the instance descriptor at its
current offset, scans the records, writes header and records into the
backup and renames it over the checkpoint path.  After the rename the
instance descriptor still refers to the old file. -/
def checkpoint_t.clean (st : checkpoint_t) (rank : Nat)
    (backupExists : Bool) : Except Unit checkpoint_t :=
  if !st._existing_results then .ok st
  else if rank ≠ 0 then .ok st
  else if backupExists then .error ()
  else
    match read_with_success (st.file.drop st.offset) default_options with
    | none => .error ()
    | some (options, hn) =>
      match checkpoint_t.current_progress { st with offset := st.offset + hn } with
      | .error e => .error e
      | .ok (progress, st2) =>
        .ok { st2 with
              pathFile := write_with_success options ++ framesOf progress
              sameInode := false }

/-- `checkpoint_t::load_options` (src/src/checkpoint.cpp lines 159-166):
nothing happens unless resuming; when resuming, a fresh read-only
descriptor on the path is used to read the framed header into the
caller's `options`. -/
def checkpoint_t.load_options (st : checkpoint_t) (options : cli_options_t) :
    Except Unit cli_options_t :=
  if st._existing_results then
    match read_with_success st.pathFile options with
    | none => .error ()
    | some (o, _) => .ok o
  else .ok options

/-- `checkpoint_t::existing_checkpoint` (src/src/checkpoint.cpp line
218). -/
def checkpoint_t.existing_checkpoint (st : checkpoint_t) : Bool :=
  st._existing_results

/-- `checkpoint_t::reload` (src/src/checkpoint.cpp lines 242-250):
closes the descriptor and reopens the path. -/
def checkpoint_t.reload (st : checkpoint_t) : checkpoint_t :=
  { st with file := st.pathFile, offset := 0, sameInode := true }

/-- `checkpoint_t::~checkpoint_t` (src/src/checkpoint.cpp line 231):
`close(_file_descriptor)` — the descriptor passed to `close`,
unconditionally. -/
def checkpoint_t.destructor (st : checkpoint_t) : Int :=
  st._file_descriptor

/-- `checkpoint_t::checkpoint_t(checkpoint_t&&)` (src/src/checkpoint.cpp
lines 233-235): the move constructor copies `_file_descriptor` and
nothing else; the moved-from object is left untouched.  The new object's
remaining members are default/indeterminate (`junk` stands for the
indeterminate `_existing_results`); since both objects hold the same
descriptor they share its file and offset. -/
def checkpoint_t.moveConstruct (other : checkpoint_t) (junk : Bool) :
    checkpoint_t × checkpoint_t :=
  ({ _file_descriptor := other._file_descriptor
     _existing_results := junk
     file := other.file
     offset := other.offset
     pathFile := other.pathFile
     sameInode := other.sameInode },
   other)

/-- Concrete sample configuration used by the witness theorems. -/
def sample_options : cli_options_t :=
  ⟨[109, 115, 97], [116, 114, 101, 101], [112], [], [], [], 3,
   [71, 84, 82], 4, 1, 42, 1, 4, 5, 6, 7, 8, 9,
   false, true, false, true, false⟩

/-- Concrete sample records (ids 3, 1, 2 — deliberately not sorted) used
by the witness theorems. -/
def sample_results : List rd_result_t := [⟨3⟩, ⟨1⟩, ⟨2⟩]

/-- The fresh-vs-resume flag of a (possibly failing) operation result
matches the starting state's flag (vacuously true on failure, where the
C++ object is left unchanged by the escaping exception). -/
def flagPreservedSt (st : checkpoint_t) : Except Unit checkpoint_t → Prop
  | .error _ => True
  | .ok st' => st'._existing_results = st._existing_results

/-- As `flagPreservedSt`, for operations also returning a value. -/
def flagPreservedPair {α : Type} (st : checkpoint_t) :
    Except Unit (α × checkpoint_t) → Prop
  | .error _ => True
  | .ok (_, st') => st'._existing_results = st._existing_results

theorem length_encodeW (w n : Nat) : (encodeW w n).length = w := by
  induction w generalizing n with
  | zero => rfl
  | succ k ih => simp [encodeW, ih]

theorem decodeW_encodeW_append (w n : Nat) (rest : List Nat) :
    decodeW w (encodeW w n ++ rest) = n % 256 ^ w := by
  induction w generalizing n with
  | zero => simp [encodeW, decodeW, Nat.mod_one]
  | succ k ih =>
    simp only [encodeW, List.cons_append, decodeW, List.append_eq]
    rw [ih, pow_succ', Nat.mod_mul]

theorem decodeW_encodeW (w n : Nat) (rest : List Nat) (h : n < 256 ^ w) :
    decodeW w (encodeW w n ++ rest) = n := by
  rw [decodeW_encodeW_append, Nat.mod_eq_of_lt h]

theorem drop_encodeW (w n : Nat) (rest : List Nat) :
    (encodeW w n ++ rest).drop w = rest := by
  rw [List.drop_left' (length_encodeW w n)]

theorem readW_encodeW (w n : Nat) (rest : List Nat) (h : n < 256 ^ w) :
    readW w (encodeW w n ++ rest) = some (n, w) := by
  simp [readW, List.length_append, length_encodeW, decodeW_encodeW w n rest h]

theorem readBool_encodeBool (b : Bool) (rest : List Nat) :
    readBool (encodeBool b ++ rest) = some (b, 1) := by
  cases b <;> simp [encodeBool, readBool]

theorem drop_encodeBool (b : Bool) (rest : List Nat) :
    (encodeBool b ++ rest).drop 1 = rest := by
  cases b <;> simp [encodeBool]

/-- The bytes of a string survive the C-string construction in
`read<std::string>` exactly when none of them is a NUL byte. -/
theorem takeWhile_ne_zero (s : List Nat) (h : ∀ b ∈ s, b ≠ 0) :
    s.takeWhile (fun b => b != 0) = s := by
  induction s with
  | nil => rfl
  | cons a l ih =>
    have ha : (a != 0) = true := by simpa using h a (by simp)
    simp [List.takeWhile, ha, ih fun b hb => h b (by simp [hb])]

theorem length_writeString (s : List Nat) :
    (writeString s).length = 8 + s.length := by
  simp [writeString, length_encodeW]

theorem drop_writeString (s rest : List Nat) :
    (writeString s ++ rest).drop (8 + s.length) = rest := by
  rw [List.drop_left' (length_writeString s)]

/-- A string whose bytes are all nonzero and whose length fits the
8-byte size field round-trips through `write<std::string>` /
`read<std::string>` when the out-parameter starts empty (as it does in a
default-constructed `cli_options_t`). -/
theorem readString_writeString (s : List Nat) (h0 : ∀ b ∈ s, b ≠ 0)
    (hl : s.length < 256 ^ 8) :
    ∀ rest : List Nat, readString (writeString s ++ rest) [] = some (s, 8 + s.length) := by
  intro rest
  unfold readString writeString
  rw [List.append_assoc]
  have hcond : ¬ ((encodeW 8 s.length ++ (s ++ rest)).length < 8) := by
    simp [List.length_append, length_encodeW]
  rw [if_neg hcond, decodeW_encodeW 8 s.length (s ++ rest) hl]
  rcases Nat.eq_zero_or_pos s.length with hz | hp
  · rw [List.length_eq_zero] at hz
    subst hz
    simp
  · have hne : s.length ≠ 0 := Nat.pos_iff_ne_zero.mp hp
    rw [if_neg hne, drop_encodeW 8 s.length (s ++ rest), List.take_left' rfl]
    simp only []
    rw [takeWhile_ne_zero s h0]

theorem length_encodeBool (b : Bool) : (encodeBool b).length = 1 := by
  cases b <;> rfl

theorem length_encodeOptions (o : cli_options_t) :
    (encodeOptions o).length =
      149 + (o.msa_filename.length + o.tree_filename.length +
        o.prefix_field.length + o.model_filename.length +
        o.freqs_filename.length + o.partition_filename.length +
        o.model_string.length) := by
  simp [encodeOptions, List.length_append, length_writeString, length_encodeW,
    length_encodeBool]
  omega

/-- The configuration codec round-trips: decoding the encoding of a
valid snapshot into a default-constructed out-parameter returns the
snapshot and consumes exactly its encoding. -/
theorem decodeOptions_encodeOptions (o : cli_options_t) (rest : List Nat)
    (h : optionsValid o) :
    decodeOptions (encodeOptions o ++ rest) default_options =
      some (o, (encodeOptions o).length) := by
  obtain ⟨h1, h2, h3, h4, h5, h6, h8, hd, h9, h10, h11, h12, h13, h14,
    h15, h16, h17, h18, hlen⟩ := h
  have e1 := readString_writeString _ h1.1 h1.2
  have e2 := readString_writeString _ h2.1 h2.2
  have e3 := readString_writeString _ h3.1 h3.2
  have e4 := readString_writeString _ h4.1 h4.2
  have e5 := readString_writeString _ h5.1 h5.2
  have e6 := readString_writeString _ h6.1 h6.2
  have e8 := readString_writeString _ h8.1 h8.2
  have w7 : ∀ r, readW 8 (encodeW 8 o.data_type ++ r) = some (o.data_type, 8) :=
    fun r => readW_encodeW 8 _ r hd
  have w9 : ∀ r, readW 8 (encodeW 8 o.rate_cats ++ r) = some (o.rate_cats, 8) :=
    fun r => readW_encodeW 8 _ r h9
  have w10 : ∀ r, readW 8 (encodeW 8 o.rate_category_types ++ r) =
      some (o.rate_category_types, 8) := fun r => readW_encodeW 8 _ r h10
  have w11 : ∀ r, readW 8 (encodeW 8 o.seed ++ r) = some (o.seed, 8) :=
    fun r => readW_encodeW 8 _ r h11
  have w12 : ∀ r, readW 8 (encodeW 8 o.min_roots ++ r) = some (o.min_roots, 8) :=
    fun r => readW_encodeW 8 _ r h12
  have w13 : ∀ r, readW 8 (encodeW 8 o.threads ++ r) = some (o.threads, 8) :=
    fun r => readW_encodeW 8 _ r h13
  have w14 : ∀ r, readW 8 (encodeW 8 o.root_ratio ++ r) = some (o.root_ratio, 8) :=
    fun r => readW_encodeW 8 _ r h14
  have w15 : ∀ r, readW 8 (encodeW 8 o.abs_tolerance ++ r) =
      some (o.abs_tolerance, 8) := fun r => readW_encodeW 8 _ r h15
  have w16 : ∀ r, readW 8 (encodeW 8 o.factor ++ r) = some (o.factor, 8) :=
    fun r => readW_encodeW 8 _ r h16
  have w17 : ∀ r, readW 8 (encodeW 8 o.br_tolerance ++ r) =
      some (o.br_tolerance, 8) := fun r => readW_encodeW 8 _ r h17
  have w18 : ∀ r, readW 8 (encodeW 8 o.bfgs_tol ++ r) = some (o.bfgs_tol, 8) :=
    fun r => readW_encodeW 8 _ r h18
  simp only [decodeOptions, encodeOptions, default_options, List.append_assoc,
    e1, e2, e3, e4, e5, e6, e8, w7, w9, w10, w11, w12, w13, w14, w15, w16,
    w17, w18, readBool_encodeBool, drop_writeString, drop_encodeW,
    drop_encodeBool]
  simp only [Option.some.injEq, Prod.mk.injEq]
  refine ⟨trivial, ?_⟩
  simp [List.length_append, length_writeString, length_encodeW, length_encodeBool]
  omega

theorem length_write_with_success (o : cli_options_t) :
    (write_with_success o).length = 8 + (encodeOptions o).length := by
  simp [write_with_success, List.length_append, length_encodeW]

theorem read_write_with_success (o : cli_options_t) (rest : List Nat)
    (h : optionsValid o) :
    read_with_success (write_with_success o ++ rest) default_options =
      some (o, 8 + (encodeOptions o).length) := by
  have hlen : (encodeOptions o).length < 256 ^ 8 := by
    obtain ⟨-, -, -, -, -, -, -, -, -, -, -, -, -, -, -, -, -, -, hl⟩ := h
    exact hl
  unfold write_with_success read_with_success
  rw [List.append_assoc, readW_encodeW 8 _ _ hlen, drop_encodeW,
    decodeOptions_encodeOptions o rest h]
  rw [Option.some_bind, Option.some_bind, if_pos rfl]

theorem drop_write_with_success (o : cli_options_t) (rest : List Nat) :
    (write_with_success o ++ rest).drop (8 + (encodeOptions o).length) = rest := by
  rw [List.drop_left' (length_write_with_success o)]

theorem length_write_with_checksum (r : rd_result_t) :
    (write_with_checksum r).length = 24 := by
  simp [write_with_checksum, encodeResult, List.length_append, length_encodeW]

theorem checksum_lt (bs : List Nat) : checksum bs < 256 ^ 8 :=
  Nat.mod_lt _ (by norm_num)

theorem decodeW_encodeW_self (w n : Nat) (h : n < 256 ^ w) :
    decodeW w (encodeW w n) = n := by
  have := decodeW_encodeW w n [] h
  simpa using this

/-- Reading a well-formed frame yields the framed record and consumes
exactly 24 bytes. -/
theorem read_with_checksum_frame (r : rd_result_t) (rest : List Nat)
    (h : resultValid r) :
    read_with_checksum (write_with_checksum r ++ rest) = .ok r 24 := by
  have hL : (encodeResult r).length = 8 := by simp [encodeResult, length_encodeW]
  have h8 : (8 : Nat) < 256 ^ 8 := by norm_num
  unfold write_with_checksum read_with_checksum
  rw [hL, List.append_assoc, List.append_assoc]
  have hlen : (encodeW 8 8 ++ (encodeW 8 (checksum (encodeResult r)) ++
      (encodeResult r ++ rest))).length = 24 + rest.length := by
    simp [List.length_append, length_encodeW, hL]
    omega
  have hdrop16 : (encodeW 8 8 ++ (encodeW 8 (checksum (encodeResult r)) ++
      (encodeResult r ++ rest))).drop 16 = encodeResult r ++ rest := by
    rw [← List.append_assoc]
    refine List.drop_left' ?_
    simp [List.length_append, length_encodeW]
  rw [decodeW_encodeW 8 8 _ h8, drop_encodeW,
    decodeW_encodeW 8 _ _ (checksum_lt (encodeResult r)), hdrop16,
    List.take_left' hL, hlen, hL]
  rw [if_neg (by omega), if_neg (by omega), if_neg (by omega),
    if_neg (by simp), if_neg (by omega)]
  unfold encodeResult
  rw [decodeW_encodeW_self 8 r.root_id h]

theorem read_with_checksum_nil : read_with_checksum [] = .eof := by
  simp [read_with_checksum]

theorem scanStop_nil : scanStop [] := Or.inl read_with_checksum_nil

theorem scanBodyF_stop (fuel : Nat) (bs : List Nat) (h : scanStop bs) :
    scanBodyF (fuel + 1) bs = .ok ([], 0) := by
  rcases h with h | h | h <;> simp [scanBodyF, h]

theorem framesOf_nil : framesOf [] = [] := rfl

theorem framesOf_cons (r : rd_result_t) (rs : List rd_result_t) :
    framesOf (r :: rs) = write_with_checksum r ++ framesOf rs := by
  simp [framesOf]

theorem length_framesOf (rs : List rd_result_t) :
    (framesOf rs).length = 24 * rs.length := by
  induction rs with
  | nil => rfl
  | cons r rs ih =>
    rw [framesOf_cons, List.length_append, length_write_with_checksum, ih,
      List.length_cons]
    ring

theorem drop_frame (r : rd_result_t) (rest : List Nat) :
    (write_with_checksum r ++ rest).drop 24 = rest :=
  List.drop_left' (length_write_with_checksum r)

/-- Scanning any number of well-formed frames followed by a clean stop
point returns exactly the framed records, in order, consuming 24 bytes
per record, with no failure escaping. -/
theorem scanBodyF_frames (rs : List rd_result_t) : ∀ fuel tail,
    rs.length < fuel → (∀ x ∈ rs, resultValid x) → scanStop tail →
    scanBodyF fuel (framesOf rs ++ tail) = .ok (rs, 24 * rs.length) := by
  induction rs with
  | nil =>
    intro fuel tail hf hv ht
    cases fuel with
    | zero => omega
    | succ f =>
      rw [framesOf_nil, List.nil_append, scanBodyF_stop f tail ht]
      simp
  | cons r rs ih =>
    intro fuel tail hf hv ht
    cases fuel with
    | zero => omega
    | succ f =>
      rw [framesOf_cons, List.append_assoc]
      have hr : resultValid r := hv r (by simp)
      have hih := ih f tail (by simpa using hf) (fun x hx => hv x (by simp [hx])) ht
      simp only [scanBodyF, read_with_checksum_frame r _ hr, expected_read_size,
        drop_frame, hih]
      simp [List.length_cons]
      ring

/-- The full scan of well-formed frames followed by a clean stop
point. -/
theorem scanBody_frames (rs : List rd_result_t) (tail : List Nat)
    (hv : ∀ x ∈ rs, resultValid x) (ht : scanStop tail) :
    scanBody (framesOf rs ++ tail) = .ok (rs, 24 * rs.length) := by
  refine scanBodyF_frames rs _ tail ?_ hv ht
  rw [List.length_append, length_framesOf]
  omega

theorem decodeW_take (w : Nat) : ∀ (K : Nat) (l : List Nat), w ≤ K →
    decodeW w (l.take K) = decodeW w l := by
  induction w with
  | zero => intro K l _; rfl
  | succ v ih =>
    intro K l hK
    cases K with
    | zero => omega
    | succ k =>
      cases l with
      | nil => rfl
      | cons b t =>
        simp only [List.take_succ_cons, decodeW]
        rw [ih k t (by omega)]

/-- A strict, nonempty-or-empty prefix of a frame (a record whose append
was cut short) stops the scanning loop as a corruption-class outcome or
end-of-file, never as a decoded record. -/
theorem scanStop_partial_frame (r : rd_result_t) (K : Nat) (hK : K < 24) :
    scanStop ((write_with_checksum r).take K) := by
  have hL : (encodeResult r).length = 8 := by simp [encodeResult, length_encodeW]
  have hw : write_with_checksum r =
      encodeW 8 8 ++ (encodeW 8 (checksum (encodeResult r)) ++ encodeResult r) := by
    rw [write_with_checksum, hL, List.append_assoc]
  have hlen : ((write_with_checksum r).take K).length = K := by
    rw [List.length_take, length_write_with_checksum]
    omega
  rcases Nat.eq_zero_or_pos K with hz | hp
  · subst hz
    simpa using scanStop_nil
  rcases Nat.lt_or_ge K 16 with h16 | h16
  · right; left
    unfold read_with_checksum
    rw [hlen, if_neg (by omega), if_pos h16]
  · right; left
    unfold read_with_checksum
    rw [hlen, if_neg (by omega), if_neg (by omega)]
    have hdec : decodeW 8 ((write_with_checksum r).take K) = 8 := by
      rw [decodeW_take 8 K _ (by omega), hw,
        decodeW_encodeW 8 8 _ (by norm_num)]
    rw [hdec]
    have hdrop : ((write_with_checksum r).take K).drop 16 =
        (encodeResult r).take (K - 16) := by
      rw [List.drop_take, hw, ← List.append_assoc]
      have : (encodeW 8 8 ++ encodeW 8 (checksum (encodeResult r))).length = 16 := by
        simp [List.length_append, length_encodeW]
      rw [List.drop_left' this]
    rw [hdrop, List.take_take]
    have hlt : ((encodeResult r).take (8 ⊓ (K - 16))).length < 8 := by
      rw [List.length_take, hL]
      omega
    rw [if_pos hlt]

/-- The scan of a file consisting of a valid framed header, well-formed
record frames, and a trailing region at which the loop stops cleanly. -/
theorem current_progress_spec (st : checkpoint_t) (o : cli_options_t)
    (rs : List rd_result_t) (tail : List Nat)
    (hfile : st.file = write_with_success o ++ (framesOf rs ++ tail))
    (ho : optionsValid o) (hrs : ∀ x ∈ rs, resultValid x) (ht : scanStop tail) :
    st.current_progress = .ok (rs,
      { st with offset := 8 + (encodeOptions o).length + 24 * rs.length }) := by
  unfold checkpoint_t.current_progress
  rw [hfile]
  simp only [read_write_with_success o _ ho, drop_write_with_success,
    scanBody_frames rs tail hrs ht, Nat.add_assoc]

theorem foldl_write_file (rs : List rd_result_t) : ∀ st : checkpoint_t,
    (rs.foldl checkpoint_t.write st).file = st.file ++ framesOf rs := by
  induction rs with
  | nil => intro st; simp [framesOf_nil]
  | cons r rs ih =>
    intro st
    rw [List.foldl_cons, ih, framesOf_cons, ← List.append_assoc]
    rfl

theorem foldl_write_flag (rs : List rd_result_t) : ∀ st : checkpoint_t,
    (rs.foldl checkpoint_t.write st)._existing_results = st._existing_results := by
  induction rs with
  | nil => intro st; rfl
  | cons r rs ih => intro st; rw [List.foldl_cons, ih]; rfl

/-- C8: appending result records via `checkpoint_t::write` in a given
call order and then scanning with `current_progress` returns exactly
those records in the same (append) order — not sorted or reordered. -/
theorem C8_append_order_preservation (fd : Int) (o : cli_options_t)
    (rs : List rd_result_t) (ho : optionsValid o)
    (hrs : ∀ x ∈ rs, resultValid x) :
    ∃ st', (rs.foldl checkpoint_t.write
        ((checkpoint_mk none fd).save_options o)).current_progress =
      .ok (rs, st') := by
  refine ⟨_, current_progress_spec _ o rs [] ?_ ho hrs scanStop_nil⟩
  rw [foldl_write_file]
  simp [checkpoint_mk, checkpoint_t.save_options, appendFd]

theorem C8_witness : ∃ st',
    (sample_results.foldl checkpoint_t.write
        ((checkpoint_mk none 3).save_options sample_options)).current_progress =
      .ok (sample_results, st') :=
  C8_append_order_preservation 3 sample_options sample_results
    (by decide) (by decide)

/-- C2: a file holding a valid header, N complete framed records and a
partial trailing record (a strict prefix of a full 24-byte frame) scans
to exactly the N complete records: no failure escapes to the caller and
no record is fabricated from the partial tail. -/
theorem C2_truncation_safety (fd : Int) (o : cli_options_t)
    (rs : List rd_result_t) (r : rd_result_t) (K : Nat)
    (ho : optionsValid o) (hrs : ∀ x ∈ rs, resultValid x) (hK : K < 24) :
    ∃ st', (checkpoint_mk (some (write_with_success o ++
        (framesOf rs ++ (write_with_checksum r).take K))) fd).current_progress =
      .ok (rs, st') := by
  refine ⟨_, current_progress_spec _ o rs _ ?_ ho hrs (scanStop_partial_frame r K hK)⟩
  rfl

theorem C2_witness : ∃ st',
    (checkpoint_mk (some (write_with_success sample_options ++
        (framesOf sample_results ++
          (write_with_checksum ⟨7⟩).take 10))) 3).current_progress =
      .ok (sample_results, st') :=
  C2_truncation_safety 3 sample_options sample_results ⟨7⟩ 10
    (by decide) (by decide) (by decide)

/-- C3: when the body-record region is corrupt at some point (a short
read or a checksum mismatch), `current_progress` and
`completed_indicies` surface no hard failure to the caller: they stop
scanning at the corruption point and return every record successfully
decoded before it. -/
theorem C3_corruption_non_propagation (fd : Int) (o : cli_options_t)
    (rs : List rd_result_t) (tail : List Nat) (ho : optionsValid o)
    (hrs : ∀ x ∈ rs, resultValid x)
    (ht : read_with_checksum tail = .shortRead ∨
      read_with_checksum tail = .checksumMismatch) :
    ∃ st',
      (checkpoint_mk (some (write_with_success o ++ (framesOf rs ++ tail)))
          fd).current_progress = .ok (rs, st') ∧
      (checkpoint_mk (some (write_with_success o ++ (framesOf rs ++ tail)))
          fd).completed_indicies = .ok (rs.map rd_result_t.root_id, st') := by
  have h := current_progress_spec
    (checkpoint_mk (some (write_with_success o ++ (framesOf rs ++ tail))) fd)
    o rs tail rfl ho hrs (Or.inr ht)
  refine ⟨_, h, ?_⟩
  unfold checkpoint_t.completed_indicies
  rw [h]

theorem C3_witness : ∃ st',
    (checkpoint_mk (some (write_with_success sample_options ++
        (framesOf sample_results ++ [5]))) 3).current_progress =
      .ok (sample_results, st') ∧
    (checkpoint_mk (some (write_with_success sample_options ++
        (framesOf sample_results ++ [5]))) 3).completed_indicies =
      .ok (sample_results.map rd_result_t.root_id, st') :=
  C3_corruption_non_propagation 3 sample_options sample_results [5]
    (by decide) (by decide) (by decide)

/-- `clean` on the coordinating rank, on a pre-existing well-formed file
read from offset 0 with no stale backup: it succeeds and installs the
re-encoded header and records at the checkpoint path, while the instance
descriptor keeps referring to the old file. -/
theorem clean_spec (st : checkpoint_t) (o : cli_options_t)
    (rs : List rd_result_t) (hex : st._existing_results = true)
    (hoff : st.offset = 0)
    (hfile : st.file = write_with_success o ++ framesOf rs)
    (ho : optionsValid o) (hrs : ∀ x ∈ rs, resultValid x) :
    st.clean 0 false = .ok
      { st with offset := 8 + (encodeOptions o).length + 24 * rs.length,
                pathFile := write_with_success o ++ framesOf rs,
                sameInode := false } := by
  obtain ⟨fd, ex, fl, off, pf, si⟩ := st
  dsimp only at hex hoff hfile ⊢
  subst hex hoff hfile
  unfold checkpoint_t.clean
  rw [if_neg (by simp), if_neg (by simp), if_neg (by simp)]
  rw [List.drop_zero, read_write_with_success o _ ho]
  have hfile' : (checkpoint_t.mk fd true (write_with_success o ++ framesOf rs)
      (0 + (8 + (encodeOptions o).length)) pf si).file =
      write_with_success o ++ (framesOf rs ++ []) := by
    dsimp only
    rw [List.append_nil]
  have hprog := current_progress_spec _ o rs [] hfile' ho hrs scanStop_nil
  simp only [hprog]

/-- C1: for a pre-existing checkpoint file holding a valid header
followed by result records, `clean()` on the coordinating rank (rank 0,
no stale backup) succeeds, a subsequent scan (`current_progress`) yields
exactly the same records unchanged, and the primary path holds the same
header followed by the same records. -/
theorem C1_compaction_idempotence (fd : Int) (o : cli_options_t)
    (rs : List rd_result_t) (ho : optionsValid o)
    (hrs : ∀ x ∈ rs, resultValid x) :
    ∃ st',
      (checkpoint_mk (some (write_with_success o ++ framesOf rs)) fd).clean
          0 false = .ok st' ∧
      st'.pathFile = write_with_success o ++ framesOf rs ∧
      ∃ st'', st'.current_progress = .ok (rs, st'') := by
  have h1 := clean_spec
    (checkpoint_mk (some (write_with_success o ++ framesOf rs)) fd)
    o rs rfl rfl rfl ho hrs
  refine ⟨_, h1, rfl, ?_⟩
  refine ⟨_, current_progress_spec _ o rs [] ?_ ho hrs scanStop_nil⟩
  dsimp only [checkpoint_mk]
  rw [List.append_nil]
  rfl

theorem C1_witness : ∃ st',
    (checkpoint_mk (some (write_with_success sample_options ++
        framesOf sample_results)) 3).clean 0 false = .ok st' ∧
    st'.pathFile = write_with_success sample_options ++
      framesOf sample_results ∧
    ∃ st'', st'.current_progress = .ok (sample_results, st'') :=
  C1_compaction_idempotence 3 sample_options sample_results
    (by decide) (by decide)

/-- C5: `save_options` writes the framed header exactly once when the
file did not pre-exist (the file then consists of exactly that one
framed header, at the path too); it is a no-op when resuming; and after
a later `save_options cfg2` call the stored on-disk header still decodes
to the original configuration. -/
theorem C5_header_write_once (fd : Int) (o1 o2 : cli_options_t)
    (st : checkpoint_t) (h1 : optionsValid o1)
    (hex : st._existing_results = true) :
    ((checkpoint_mk none fd).save_options o1).file = write_with_success o1 ∧
    ((checkpoint_mk none fd).save_options o1).pathFile = write_with_success o1 ∧
    st.save_options o2 = st ∧
    read_with_success
        (((checkpoint_mk none fd).save_options o1).save_options o2).file
        default_options = some (o1, 8 + (encodeOptions o1).length) := by
  refine ⟨rfl, rfl, ?_, ?_⟩
  · unfold checkpoint_t.save_options
    rw [hex]
    simp
  · have heq : (((checkpoint_mk none fd).save_options o1).save_options o2).file =
        write_with_success o1 ++ write_with_success o2 := rfl
    rw [heq, read_write_with_success o1 _ h1]

theorem C5_witness :
    ((checkpoint_mk none 3).save_options sample_options).file =
      write_with_success sample_options ∧
    ((checkpoint_mk none 3).save_options sample_options).pathFile =
      write_with_success sample_options ∧
    (checkpoint_mk (some []) 4).save_options default_options =
      checkpoint_mk (some []) 4 ∧
    read_with_success
        (((checkpoint_mk none 3).save_options sample_options).save_options
          default_options).file default_options =
      some (sample_options, 8 + (encodeOptions sample_options).length) :=
  C5_header_write_once 3 sample_options default_options
    (checkpoint_mk (some []) 4) (by decide) rfl

/-- C10: on an instance whose checkpoint file did not pre-exist,
`load_options` returns without reading the file and leaves the
caller-supplied options value entirely unchanged. -/
theorem C10_load_options_fresh (st : checkpoint_t) (o : cli_options_t)
    (h : st._existing_results = false) : st.load_options o = .ok o := by
  unfold checkpoint_t.load_options
  rw [h]
  simp

theorem C10_witness :
    (checkpoint_mk none 3).load_options sample_options = .ok sample_options :=
  C10_load_options_fresh (checkpoint_mk none 3) sample_options rfl

/-- C4 counterexample: the claim fails for strings with arbitrary byte
content — encoding the one-byte string `[0]` and decoding it back yields
the empty string (the C-string reconstruction in `read<std::string>`
stops at the first NUL byte), not `[0]`. -/
theorem C4_counterexample :
    readString (writeString [0]) [] = some ([], 9) ∧
    ([] : List Nat) ≠ [0] := by
  constructor
  · rfl
  · decide

/-- C4 amended: the codec round-trips for every fixed-width scalar and
boolean, and for every string free of NUL bytes whose length fits the
8-byte size field (decoded into an empty out-parameter); zero-length
text decodes to an empty value.  A string containing a NUL byte is
truncated at it (see the counterexample). -/
theorem C4_codec_roundtrip (s rest : List Nat) (w v : Nat) (b : Bool)
    (h0 : ∀ x ∈ s, x ≠ 0) (hl : s.length < 256 ^ 8) (hv : v < 256 ^ w) :
    readString (writeString s ++ rest) [] = some (s, 8 + s.length) ∧
    readW w (encodeW w v ++ rest) = some (v, w) ∧
    readBool (encodeBool b ++ rest) = some (b, 1) ∧
    readString (writeString [] ++ rest) [] = some ([], 8) :=
  ⟨readString_writeString s h0 hl rest, readW_encodeW w v rest hv,
   readBool_encodeBool b rest,
   readString_writeString [] (by simp) (by norm_num) rest⟩

theorem C4_witness :
    readString (writeString [104, 105] ++ [9]) [] = some ([104, 105], 10) ∧
    readW 8 (encodeW 8 42 ++ [9]) = some (42, 8) ∧
    readBool (encodeBool true ++ [9]) = some (true, 1) ∧
    readString (writeString [] ++ [9]) [] = some ([], 8) :=
  C4_codec_roundtrip [104, 105] [9] 8 42 true (by decide) (by decide)
    (by decide)

/-- C7 counterexample: the claim fails for the payload bytes — with the
8-byte length prefix fully transferred but the payload write
transferring 0 of the 1 requested bytes, `write<std::string>` returns
success (total 8) instead of failing with a WriteFailure. -/
theorem C7_counterexample :
    writeStringWith [97] 8 0 = .ok 8 ∧ (0 : Nat) < ([97] : List Nat).length := by
  constructor
  · rfl
  · decide

/-- C7 amended: a short write of the 8-byte length prefix raises
WriteFailure immediately, but a short write of the payload bytes is not
detected: once the prefix is fully transferred the call returns success
with the (possibly short) payload byte count merely added to the
total. -/
theorem C7_short_write_detection (s : List Nat) (r1 r2 : Nat) :
    writeStringWith s (min r1 7) r2 = .error () ∧
    writeStringWith s 8 r2 = .ok (8 + r2) := by
  constructor
  · unfold writeStringWith
    rw [if_pos (by omega)]
  · rfl

/-- C6: the move constructor copies the file descriptor but leaves the
moved-from object still holding it, and the destructor closes its
descriptor unconditionally — so destroying both the source and the
destination closes the same descriptor (here 7) twice, contradicting the
claimed no-double-close transfer. -/
theorem C6_move_double_close :
    ((checkpoint_mk (some []) 7).moveConstruct false).1.destructor = 7 ∧
    ((checkpoint_mk (some []) 7).moveConstruct false).2.destructor = 7 ∧
    ((checkpoint_mk (some []) 7).moveConstruct false).2._file_descriptor =
      ((checkpoint_mk (some []) 7).moveConstruct false).1._file_descriptor := by
  exact ⟨rfl, rfl, rfl⟩

theorem current_progress_flag_eq (st : checkpoint_t) :
    flagPreservedPair st st.current_progress := by
  unfold checkpoint_t.current_progress
  cases read_with_success st.file default_options with
  | none => exact trivial
  | some p =>
    obtain ⟨o', hn⟩ := p
    dsimp only
    cases scanBody (st.file.drop hn) with
    | error e => exact trivial
    | ok q =>
      obtain ⟨rs0, bn⟩ := q
      exact rfl

theorem current_progress_flag_of_ok (st st' : checkpoint_t)
    (rs : List rd_result_t) (h : st.current_progress = .ok (rs, st')) :
    st'._existing_results = st._existing_results := by
  have hp := current_progress_flag_eq st
  rw [h] at hp
  exact hp

theorem clean_flag_eq (st : checkpoint_t) (rank : Nat) (b : Bool) :
    flagPreservedSt st (st.clean rank b) := by
  unfold checkpoint_t.clean
  split
  · exact rfl
  · split
    · exact rfl
    · split
      · exact trivial
      · split
        · exact trivial
        · rename_i options hn heq
          cases hprog : checkpoint_t.current_progress
              { st with offset := st.offset + hn } with
          | error e => exact trivial
          | ok q =>
            obtain ⟨progress, st2⟩ := q
            have := current_progress_flag_of_ok _ _ _ hprog
            simpa [flagPreservedSt] using this

theorem completed_indicies_flag_eq (st : checkpoint_t) :
    flagPreservedPair st st.completed_indicies := by
  unfold checkpoint_t.completed_indicies
  cases hp : st.current_progress with
  | error e => exact trivial
  | ok q =>
    obtain ⟨res, st'⟩ := q
    have := current_progress_flag_of_ok st st' res hp
    simpa [flagPreservedPair] using this

theorem clean_noop_of_fresh (st : checkpoint_t) (rank : Nat) (b : Bool)
    (hs : st._existing_results = false) : st.clean rank b = .ok st := by
  unfold checkpoint_t.clean
  rw [hs]
  simp

/-- C9: the fresh-vs-resume flag is fixed by the pre-open existence
check at construction and never updated afterwards: every operation
preserves `_existing_results`, and on a log opened when no file existed
— even after `save_options` wrote the header and records were appended —
`existing_checkpoint` returns `false` and `clean` returns without
compacting, leaving the state untouched. -/
theorem C9_fresh_flag_constancy (fd : Int) (o : cli_options_t)
    (r : rd_result_t) (rs : List rd_result_t) (rank : Nat) (b : Bool)
    (st : checkpoint_t) :
    (rs.foldl checkpoint_t.write
        ((checkpoint_mk none fd).save_options o)).existing_checkpoint = false ∧
    (rs.foldl checkpoint_t.write
        ((checkpoint_mk none fd).save_options o)).clean rank b =
      .ok (rs.foldl checkpoint_t.write
        ((checkpoint_mk none fd).save_options o)) ∧
    (st.save_options o)._existing_results = st._existing_results ∧
    (st.write r)._existing_results = st._existing_results ∧
    flagPreservedPair st st.current_progress ∧
    flagPreservedPair st st.completed_indicies ∧
    flagPreservedSt st (st.clean rank b) ∧
    st.reload._existing_results = st._existing_results := by
  have hflag : (rs.foldl checkpoint_t.write
      ((checkpoint_mk none fd).save_options o))._existing_results = false := by
    rw [foldl_write_flag]
    rfl
  refine ⟨?_, ?_, ?_, rfl, current_progress_flag_eq st,
    completed_indicies_flag_eq st, clean_flag_eq st rank b, rfl⟩
  · exact hflag
  · exact clean_noop_of_fresh _ rank b hflag
  · cases hs : st._existing_results <;>
      simp [checkpoint_t.save_options, hs, appendFd]

